import Mathlib

/-!
Shallow embedding of the PDF-layout-to-Markdown reconstruction engine of
`src/App.vue` (the `<script setup>` block, functions `getMedian`, `quantizeY`,
`extractLinesFromPdfTextContent`, `looksLikeHeading`, `headingLevel`,
`normalizeListPrefix` (here `normalizeListLead`), `splitTabbedColumns`,
`fallbackTabbedBlock`, `tabbedBlockToMarkdownTable`, `linesToMarkdown`,
`pdfToMarkdown`).

Modelling conventions:
- JavaScript numbers are modelled as `ℚ` (all arithmetic in the engine is
  exact decimal arithmetic on small values; no claim hinges on binary
  floating-point rounding).
- JavaScript strings are modelled as `List Char`.
- `Array.prototype.sort` with a numeric-key comparator is a stable ascending
  sort and is modelled by `List.insertionSort` with the corresponding
  non-strict key relation (orderedInsert places the earlier element first on
  ties, which is exactly stability).
- `a || b` on numbers (used only for 0/undefined defaulting) is `jsOr`;
  absent numeric fields are modelled as `0` (both `undefined` and `0` are
  falsy, and every such field is only read through `|| default`).
-/

/-- Whitespace test standing for the JavaScript regex class `\s` (the engine
only ever meets ASCII whitespace). -/
def isWs (c : Char) : Bool :=
  c = ' ' || c = '\t' || c = '\n' || c = '\r' || c = '\x0b' || c = '\x0c'

/-- JavaScript `String.prototype.trim`. -/
def trimWs (cs : List Char) : List Char :=
  ((cs.dropWhile isWs).reverse.dropWhile isWs).reverse

/-- JavaScript `.replace(/\s+/g, ' ')`: every maximal whitespace run becomes
one space.  `prevWs` records whether the previous character was whitespace. -/
def collapseWsAux (prevWs : Bool) : List Char → List Char
  | [] => []
  | c :: rest =>
    if isWs c then (if prevWs then [] else [' ']) ++ collapseWsAux true rest
    else c :: collapseWsAux false rest

/-- JavaScript `.replace(/\s+/g, ' ')` on a whole string. -/
def collapseWsRun (cs : List Char) : List Char := collapseWsAux false cs

/-- JavaScript `.replace(/[ ]{2,}/g, ' ')`: every maximal run of spaces
becomes one space (tabs untouched). -/
def collapseSpacesAux (prevSpace : Bool) : List Char → List Char
  | [] => []
  | c :: rest =>
    if c = ' ' then (if prevSpace then [] else [' ']) ++ collapseSpacesAux true rest
    else c :: collapseSpacesAux false rest

/-- JavaScript `.replace(/[ ]{2,}/g, ' ')` on a whole string. -/
def collapseSpaces (cs : List Char) : List Char := collapseSpacesAux false cs

/-- JavaScript `.replace(/\t+/g, ' ')`: every maximal run of tabs becomes one
space. -/
def tabsToSpaceAux (prevTab : Bool) : List Char → List Char
  | [] => []
  | c :: rest =>
    if c = '\t' then (if prevTab then [] else [' ']) ++ tabsToSpaceAux true rest
    else c :: tabsToSpaceAux false rest

/-- JavaScript `.replace(/\t+/g, ' ')` on a whole string. -/
def tabsToSpace (cs : List Char) : List Char := tabsToSpaceAux false cs

/-- JavaScript `.replace(/[ \t]+$/g, '')`: strip a trailing run of spaces and
tabs. -/
def stripTrailingWsTabs (cs : List Char) : List Char :=
  (cs.reverse.dropWhile (fun c => c = ' ' || c = '\t')).reverse

/-- Number of words of a string in the sense of
`plain.split(/\s+/).length` applied to a trimmed non-empty string: the number
of maximal non-whitespace runs.  `inWord` records whether the previous
character was a non-whitespace character. -/
def wordCountAux (inWord : Bool) : List Char → Nat
  | [] => 0
  | c :: rest =>
    if isWs c then wordCountAux false rest
    else (if inWord then 0 else 1) + wordCountAux true rest

/-- Word count of a (trimmed, non-empty) string, as `split(/\s+/).length`. -/
def wordCount (cs : List Char) : Nat := wordCountAux false cs

/-- JavaScript `a || b` on numbers, with absent fields modelled as `0`. -/
def jsOr (a b : ℚ) : ℚ := if a = 0 then b else a

/-- JavaScript `Math.round`: round half toward positive infinity. -/
def jsRound (x : ℚ) : ℤ := ⌊x + 1 / 2⌋

/-- Source `quantizeY` (App.vue): `Math.round(value / 2) * 2`. -/
def quantizeY (value : ℚ) : ℚ := (jsRound (value / 2) : ℚ) * 2

/-- Source `getMedian` (App.vue): sort a copy ascending; for an even-length
list average the two middle values; `0` on the empty list. -/
def getMedian (values : List ℚ) : ℚ :=
  if values.length = 0 then 0
  else
    let sorted := List.insertionSort (· ≤ ·) values
    let middle := sorted.length / 2
    if sorted.length % 2 = 0 then (sorted.getD (middle - 1) 0 + sorted.getD middle 0) / 2
    else sorted.getD middle 0

/-- Heap-level picture of `getMedian` for the frame-effect claim: the store is
a list of arrays, the argument is passed by reference (`vid` indexes the
store).  `const sorted = [...values].sort((a, b) => a - b)` first allocates a
fresh copy at the end of the store, then sorts that copy in place; the
original array is never written. -/
def getMedianImpl (σ : List (List ℚ)) (vid : Nat) : ℚ × List (List ℚ) :=
  let values := σ.getD vid []
  if values.length = 0 then (0, σ)
  else
    let σ₁ := σ ++ [values]
    let sid := σ.length
    let σ₂ := σ₁.set sid (List.insertionSort (· ≤ ·) values)
    let sorted := σ₂.getD sid []
    let middle := sorted.length / 2
    if sorted.length % 2 = 0 then ((sorted.getD (middle - 1) 0 + sorted.getD middle 0) / 2, σ₂)
    else (sorted.getD middle 0, σ₂)

/-- Source type `PdfTextSegment` (App.vue). -/
structure PdfTextSegment where
  text : List Char
  x : ℚ
  width : ℚ
  fontSize : ℚ
deriving DecidableEq, Repr

/-- Source type `ExtractedLine` (App.vue). -/
structure ExtractedLine where
  text : List Char
  hasTabs : Bool
  fontSize : ℚ
  breakAfter : Bool
deriving DecidableEq, Repr

/-- One visual row: the quantized-y bucket and its segments (source builds
these as the entries of `rowMap` mapped to `{y, segments}`). -/
structure PdfRow where
  y : ℚ
  segments : List PdfTextSegment
deriving DecidableEq, Repr

/-- One raw text run of `textContent.items`.  `width`/`height` and missing
transform entries are modelled as `0` when absent (both `undefined` and `0`
are falsy and only read through `||`-defaulting in the source). -/
structure RawItem where
  str : List Char
  transform : List ℚ
  width : ℚ
  height : ℚ
deriving DecidableEq, Repr

/-- Source constant `MAX_PDF_PAGES` (App.vue). -/
def MAX_PDF_PAGES : Nat := 100

/-- Normalization of one raw run into a row key and a segment, or `none` for
an empty/whitespace-only run: the body of the first loop of
`extractLinesFromPdfTextContent`. -/
def normalizeItem (it : RawItem) : Option (ℚ × PdfTextSegment) :=
  let text := trimWs (collapseWsRun it.str)
  if text.isEmpty then none
  else
    let x := it.transform.getD 4 0
    let y := it.transform.getD 5 0
    let width := jsOr it.width (max 4 ((text.length : ℚ) * 4))
    let fontSize := abs (jsOr (it.transform.getD 0 0)
      (jsOr (it.transform.getD 3 0) (jsOr it.height 12)))
    some (quantizeY y, { text := text, x := x, width := width, fontSize := fontSize })

/-- Append a segment to the row-map entry of its y bucket, keeping the
JavaScript `Map`'s insertion order of keys. -/
def addToRow (acc : List (ℚ × List PdfTextSegment)) (yKey : ℚ)
    (seg : PdfTextSegment) : List (ℚ × List PdfTextSegment) :=
  match acc with
  | [] => [(yKey, [seg])]
  | (k, segs) :: rest =>
    if k = yKey then (k, segs ++ [seg]) :: rest
    else (k, segs) :: addToRow rest yKey seg

/-- The `rowMap` of `extractLinesFromPdfTextContent`, as an association list
in key-insertion order. -/
def buildRowMap (items : List RawItem) : List (ℚ × List PdfTextSegment) :=
  items.foldl (fun acc it =>
    match normalizeItem it with
    | none => acc
    | some (yKey, seg) => addToRow acc yKey seg) []

/-- Key order for `segments.sort((a, b) => a.x - b.x)`: a stable ascending
sort by `x`. -/
def segLe (a b : PdfTextSegment) : Prop := a.x ≤ b.x

instance : DecidableRel segLe := fun a b => inferInstanceAs (Decidable (a.x ≤ b.x))

/-- Key order for `rows.sort((a, b) => b.y - a.y)`: a stable descending sort
by `y`. -/
def rowGe (a b : PdfRow) : Prop := b.y ≤ a.y

instance : DecidableRel rowGe := fun a b => inferInstanceAs (Decidable (b.y ≤ a.y))

/-- The sorted `rows` array of `extractLinesFromPdfTextContent`: segments of
each bucket sorted by `x` ascending, rows sorted by `y` descending. -/
def sortedRows (items : List RawItem) : List PdfRow :=
  List.insertionSort rowGe
    ((buildRowMap items).map fun p =>
      { y := p.1, segments := List.insertionSort segLe p.2 })

/-- `previousCharWidth` update: `segment.width / Math.max(segment.text.length, 1)`. -/
def segCharWidth (seg : PdfTextSegment) : ℚ :=
  seg.width / max (seg.text.length : ℚ) 1

/-- The separator decision between two consecutive segments of a row
(source: the `if (gap > tabThreshold) ... else if (gap > spaceThreshold)`
ladder with `tabThreshold = max(24, previousCharWidth * 6)` and
`spaceThreshold = max(6, previousCharWidth * 1.75)`). -/
def gapSeparator (gap previousCharWidth : ℚ) : List Char :=
  if gap > max 24 (previousCharWidth * 6) then ['\t']
  else if gap > max 6 (previousCharWidth * 1.75) then [' ']
  else []

/-- State of the `row.segments.forEach` accumulation. -/
structure AsmState where
  text : List Char
  hasTabs : Bool
  previousEnd : ℚ
  previousCharWidth : ℚ

/-- One `forEach` step for a segment at index > 0. -/
def asmStep (st : AsmState) (seg : PdfTextSegment) : AsmState :=
  let sep := gapSeparator (seg.x - st.previousEnd) st.previousCharWidth
  { text := st.text ++ sep ++ seg.text
    hasTabs := st.hasTabs || decide (sep = ['\t'])
    previousEnd := seg.x + seg.width
    previousCharWidth := segCharWidth seg }

/-- Assemble a row's text and tab flag.  The index-0 segment of the source's
`forEach` takes no separator (the `segmentIndex > 0` guard), so it seeds the
state; the remaining segments fold with `asmStep`. -/
def assembleRow (segs : List PdfTextSegment) : List Char × Bool :=
  match segs with
  | [] => ([], false)
  | first :: rest =>
    let st0 : AsmState :=
      { text := first.text, hasTabs := false,
        previousEnd := first.x + first.width, previousCharWidth := segCharWidth first }
    let final := rest.foldl asmStep st0
    (final.text, final.hasTabs)

/-- The second loop of `extractLinesFromPdfTextContent`: rows (in sorted
order) become `ExtractedLine`s; a row whose normalized text is empty is
dropped, but still counts as `rows[i + 1]` for the vertical-gap test of the
row before it. -/
def rowsToLines : List PdfRow → List ExtractedLine
  | [] => []
  | row :: rest =>
    let asm := assembleRow row.segments
    let normalized := collapseSpaces (stripTrailingWsTabs asm.1)
    if normalized.isEmpty then rowsToLines rest
    else
      let avgFontSize := (row.segments.map (·.fontSize)).sum / (row.segments.length : ℚ)
      let rowGap := match rest.head? with
        | some nextRow => abs (row.y - nextRow.y)
        | none => 0
      { text := normalized
        hasTabs := asm.2
        fontSize := avgFontSize
        breakAfter := decide (rowGap > avgFontSize * 1.7) } :: rowsToLines rest

/-- Source `extractLinesFromPdfTextContent` (App.vue). -/
def extractLinesFromPdfTextContent (items : List RawItem) : List ExtractedLine :=
  rowsToLines (sortedRows items)

/-- Test standing for the regex `/^[-*]\s+/`: a bullet marker at the start
(one of `-`, `*`, followed by at least one whitespace character). -/
def startsBulletMarker (cs : List Char) : Bool :=
  match cs with
  | c :: d :: _ => (c = '-' || c = '*') && isWs d
  | _ => false

/-- Test standing for the regex `/^\d+[\.\)]\s+/`: a numbered-list marker at
the start (digits, then `.` or `)`, then at least one whitespace character). -/
def startsNumberedMarker (cs : List Char) : Bool :=
  (cs.takeWhile Char.isDigit ≠ []) &&
    match cs.dropWhile Char.isDigit with
    | p :: w :: _ => (p = '.' || p = ')') && isWs w
    | _ => false

/-- Source `looksLikeHeading` (App.vue). -/
def looksLikeHeading (text : List Char) (fontSize bodyFontSize : ℚ) : Bool :=
  let plain := trimWs text
  if plain.isEmpty then false
  else if plain.length > 90 then false
  else if startsBulletMarker plain then false
  else if startsNumberedMarker plain then false
  else if plain.contains '\t' then false
  else if fontSize / max bodyFontSize 1 < 1.28 then false
  else decide (wordCount plain ≤ 14)

/-- Source `headingLevel` (App.vue). -/
def headingLevel (fontSize bodyFontSize : ℚ) : Nat :=
  let ratio := fontSize / max bodyFontSize 1
  if ratio ≥ 1.95 then 1
  else if ratio ≥ 1.65 then 2
  else 3

/-- Bullet glyphs of the regex `/^[•◦▪▸►‣]\s*/u`. -/
def bulletGlyphs : List Char := ['•', '◦', '▪', '▸', '►', '‣']

/-- Source `normalizeListPrefix` (App.vue; renamed here): the leading-bullet
rewrite `/^[•◦▪▸►‣]\s*/u → "- "` followed by the numbered rewrite
`/^\((\d+)\)\s+/ → "$1. "` on its result. -/
def normalizeListLead (cs : List Char) : List Char :=
  let step1 :=
    match cs with
    | c :: rest =>
      if bulletGlyphs.contains c then '-' :: ' ' :: rest.dropWhile isWs else cs
    | [] => cs
  match step1 with
  | '(' :: rest =>
    let ds := rest.takeWhile Char.isDigit
    let after := rest.dropWhile Char.isDigit
    if ds.isEmpty then step1
    else
      match after with
      | ')' :: rest2 =>
        if (rest2.takeWhile isWs).isEmpty then step1
        else ds ++ '.' :: ' ' :: rest2.dropWhile isWs
      | _ => step1
  | _ => step1

/-- Source `splitTabbedColumns` (App.vue): split on tabs, trim each part. -/
def splitOnTab : List Char → List (List Char)
  | [] => [[]]
  | '\t' :: rest => [] :: splitOnTab rest
  | c :: rest =>
    match splitOnTab rest with
    | [] => [[c]]
    | h :: t => (c :: h) :: t

/-- Source `splitTabbedColumns` (App.vue). -/
def splitTabbedColumns (text : List Char) : List (List Char) :=
  (splitOnTab text).map trimWs

/-- Source `fallbackTabbedBlock` (App.vue). -/
def fallbackTabbedBlock (block : List ExtractedLine) : List (List Char) :=
  block.map fun line =>
    normalizeListLead (trimWs (collapseSpaces (tabsToSpace line.text)))

/-- `Math.min(...rows.map(r => r.length))`; `0` for an empty block (that case
is decided by the `rows.length < 2` test before the value matters). -/
def minColsOf (rows : List (List (List Char))) : Nat :=
  match rows.map List.length with
  | [] => 0
  | n :: ns => ns.foldl min n

/-- `Math.max(...rows.map(r => r.length))`; `0` for an empty block. -/
def maxColsOf (rows : List (List (List Char))) : Nat :=
  match rows.map List.length with
  | [] => 0
  | n :: ns => ns.foldl max n

/-- Escape of a cell: `cell.replace(/\|/g, '\\|')`. -/
def escapePipes (cs : List Char) : List Char :=
  cs.flatMap fun c => if c = '|' then ['\\', '|'] else [c]

/-- Pad with empty cells to `colCount` then `slice(0, colCount)`. -/
def padCells (colCount : Nat) (cells : List (List Char)) : List (List Char) :=
  (cells ++ List.replicate (colCount - cells.length) []).take colCount

/-- A pipe-table row: `"| " + cells.join(" | ") + " |"`. -/
def mkTableRow (cells : List (List Char)) : List Char :=
  "| ".toList ++ List.intercalate " | ".toList cells ++ " |".toList

/-- The `rows` array of `tabbedBlockToMarkdownTable`:
`block.map(line => splitTabbedColumns(line.text))`. -/
def cellRowsOf (block : List ExtractedLine) : List (List (List Char)) :=
  block.map fun line => splitTabbedColumns line.text

/-- Source `tabbedBlockToMarkdownTable` (App.vue). -/
def tabbedBlockToMarkdownTable (block : List ExtractedLine) : List (List Char) :=
  let rows := cellRowsOf block
  let minCols := minColsOf rows
  let maxCols := maxColsOf rows
  if rows.length < 2 ∨ maxCols < 2 ∨ maxCols - minCols > 1 then
    fallbackTabbedBlock block
  else
    let colCount := maxCols
    let paddedRows := rows.map fun row =>
      padCells colCount (row.map fun cell => trimWs (escapePipes cell))
    let header := mkTableRow (paddedRows.headD [])
    let divider := mkTableRow (List.replicate colCount "---".toList)
    let body := paddedRows.tail.map mkTableRow
    header :: divider :: body

/-- The main loop of `linesToMarkdown` (App.vue): a run of tab-bearing lines
is handed to the table reconstructor followed by one blank entry; other lines
are list-normalized, possibly turned into a heading, and followed by a blank
entry when `breakAfter` is set. -/
def renderLines (bodyFontSize : ℚ) : List ExtractedLine → List (List Char)
  | [] => []
  | line :: rest =>
    if line.hasTabs then
      let block := line :: rest.takeWhile (·.hasTabs)
      tabbedBlockToMarkdownTable block ++ [[]] ++
        renderLines bodyFontSize (rest.dropWhile (·.hasTabs))
    else
      let normalized := normalizeListLead (trimWs line.text)
      if normalized.isEmpty then [] :: renderLines bodyFontSize rest
      else
        let emitted :=
          if looksLikeHeading normalized line.fontSize bodyFontSize then
            List.replicate (headingLevel line.fontSize bodyFontSize) '#' ++ ' ' :: normalized
          else normalized
        emitted :: (if line.breakAfter then [[]] else []) ++ renderLines bodyFontSize rest
termination_by lines => lines.length
decreasing_by
  all_goals simp only [List.length_cons]
  all_goals have := (List.dropWhile_suffix (fun l : ExtractedLine => l.hasTabs)
    (l := rest)).sublist.length_le
  all_goals omega

/-- The `/\n{3,}/g → "\n\n"` rewrite: each maximal run of newlines keeps at
most its first two newlines (`run` counts the newlines already seen in the
current maximal run). -/
def collapseNlAux (run : Nat) : List Char → List Char
  | [] => []
  | c :: rest =>
    if c = '\n' then (if run ≥ 2 then [] else ['\n']) ++ collapseNlAux (run + 1) rest
    else c :: collapseNlAux 0 rest

/-- `.replace(/\n{3,}/g, '\n\n')` on a whole string. -/
def collapseNewlines (cs : List Char) : List Char := collapseNlAux 0 cs

/-- `.replace(/[ \t]+\n/g, '\n')`, processed on the reversed string: a run of
spaces/tabs standing right before a newline is dropped (`afterNl` means the
previous reversed character was a newline or dropped run-member). -/
def stripWsNlAux (afterNl : Bool) : List Char → List Char
  | [] => []
  | c :: rest =>
    if c = '\n' then '\n' :: stripWsNlAux true rest
    else if (c = ' ' || c = '\t') && afterNl then stripWsNlAux true rest
    else c :: stripWsNlAux false rest

/-- `.replace(/[ \t]+\n/g, '\n')` on a whole string. -/
def stripWsBeforeNl (cs : List Char) : List Char :=
  (stripWsNlAux false cs.reverse).reverse

/-- Source `linesToMarkdown` (App.vue): join the emitted entries with
newlines, collapse 3+ newlines to 2, strip space/tab runs before newlines,
and trim. -/
def linesToMarkdown (lines : List ExtractedLine) (bodyFontSize : ℚ) : List Char :=
  trimWs (stripWsBeforeNl (collapseNewlines
    (List.intercalate ['\n'] (renderLines bodyFontSize lines))))

/-- The error outcomes of `pdfToMarkdown` (App.vue throws `Error` values with
these two shapes; the byte-size check and extraction failures live in the
caller / the external library and are outside this embedding). -/
inductive PdfError where
  | pageLimitExceeded (actual limit : Nat)
  | noExtractableText
deriving DecidableEq, Repr

/-- Equality of engine results is decidable (needed to evaluate the
end-to-end scenario by computation). -/
instance : DecidableEq (Except PdfError (List Char)) := fun a b =>
  match a, b with
  | .error e1, .error e2 => decidable_of_iff (e1 = e2) (by simp)
  | .ok v1, .ok v2 => decidable_of_iff (v1 = v2) (by simp)
  | .error _, .ok _ => isFalse (by simp)
  | .ok _, .error _ => isFalse (by simp)

/-- The document-wide body font size of `pdfToMarkdown`:
median of the font sizes of long tab-free lines, falling back to all lines,
with the JavaScript `|| 12` default on a falsy (zero) median. -/
def documentBodyFontSize (allLines : List ExtractedLine) : ℚ :=
  let bodyFontCandidates :=
    (allLines.filter fun line => decide (line.text.length ≥ 20) && !line.hasTabs).map
      (·.fontSize)
  let fallbackFontCandidates := allLines.map (·.fontSize)
  jsOr (getMedian (if bodyFontCandidates.length > 0 then bodyFontCandidates
    else fallbackFontCandidates)) 12

/-- Source `pdfToMarkdown` (App.vue), with the document given as its pages'
raw text runs (`pdf.numPages` is the number of pages). -/
def pdfToMarkdown (pages : List (List RawItem)) : Except PdfError (List Char) :=
  if pages.length > MAX_PDF_PAGES then
    .error (.pageLimitExceeded pages.length MAX_PDF_PAGES)
  else
    let extracted := pages.map extractLinesFromPdfTextContent
    let allLines := extracted.flatten
    if allLines.length = 0 then .error .noExtractableText
    else
      let bodyFontSize := documentBodyFontSize allLines
      let perPageMarkdown :=
        (extracted.map fun pageLines => linesToMarkdown pageLines bodyFontSize).filter
          fun s => !s.isEmpty
      .ok (trimWs (List.intercalate "\n\n---\n\n".toList perPageMarkdown))

/-- A fixed-metadata tab-bearing line for the table-reconstruction examples. -/
def mkLine (t : List Char) (tabs : Bool) : ExtractedLine :=
  { text := t, hasTabs := tabs, fontSize := 12, breakAfter := false }

/-- A 3-line tab block with cell counts [3, 3, 2] (and a literal pipe in one
cell). -/
def acceptBlock : List ExtractedLine :=
  [mkLine "a\tb\tc".toList true, mkLine "d\te|f\tg".toList true, mkLine "h\ti".toList true]

/-- A 2-line tab block with cell counts [2, 5]. -/
def rejectBlock : List ExtractedLine :=
  [mkLine "x\ty".toList true, mkLine "a\tb\tc\td\te".toList true]

/-- Row A of the end-to-end scenario: single run "Report Title" at font size
24, placed at x = 50, y = 150. -/
def itemA : RawItem :=
  { str := "Report Title".toList, transform := [24, 0, 0, 24, 50, 150],
    width := 140, height := 24 }

/-- Row B of the end-to-end scenario: single run "This is body text." at font
size 12, placed at x = 50, y = 100. -/
def itemB : RawItem :=
  { str := "This is body text.".toList, transform := [12, 0, 0, 12, 50, 100],
    width := 100, height := 12 }

/-- The one-page two-row document of the end-to-end scenario. -/
def demoDoc : List (List RawItem) := [[itemA, itemB]]

/-- A one-page document holding a single whitespace-only run. -/
def wsDoc : List (List RawItem) :=
  [[{ str := " \t ".toList, transform := [], width := 0, height := 0 }]]

/-- Claim C8: quantization is idempotent: for every y,
`quantizeY (quantizeY y) = quantizeY y`, where `quantizeY y = round (y / 2) * 2`. -/
theorem quantizeY_idempotent : ∀ y : ℚ, quantizeY (quantizeY y) = quantizeY y := by
  intro y
  unfold quantizeY jsRound
  have h1 : ((⌊y / 2 + 1 / 2⌋ : ℚ) * 2) / 2 = ((⌊y / 2 + 1 / 2⌋ : ℤ) : ℚ) := by
    ring
  rw [h1]
  have h2 : ⌊((⌊y / 2 + 1 / 2⌋ : ℤ) : ℚ) + 1 / 2⌋ = ⌊y / 2 + 1 / 2⌋ := by
    rw [add_comm, Int.floor_add_int]
    have : ⌊(1 / 2 : ℚ)⌋ = 0 := by with_unfolding_all decide
    omega
  rw [h2]

/-- Claim C5: `getMedian` evaluates to 2.5 on [1,2,3,4], to 7 on [7] and to 0
on []; and in general its value is read off the ascending sorted arrangement
of its input, averaging the two middle entries when the length is even. -/
theorem getMedian_correct :
    getMedian [1, 2, 3, 4] = 5 / 2 ∧ getMedian [7] = 7 ∧ getMedian [] = 0 ∧
    ∀ (l s : List ℚ), s.Sorted (· ≤ ·) → l.Perm s →
      getMedian l =
        if s.length = 0 then 0
        else if s.length % 2 = 0 then (s.getD (s.length / 2 - 1) 0 + s.getD (s.length / 2) 0) / 2
        else s.getD (s.length / 2) 0 := by
  refine ⟨by with_unfolding_all decide, by with_unfolding_all decide,
    by with_unfolding_all decide, ?_⟩
  intro l s hs hperm
  have hsort : List.insertionSort (· ≤ ·) l = s := by
    refine List.eq_of_perm_of_sorted ?_ ?_ hs
    · exact (List.perm_insertionSort (· ≤ ·) l).trans hperm
    · exact List.sorted_insertionSort (· ≤ ·) l
  have hlen : l.length = s.length := hperm.length_eq
  unfold getMedian
  rw [hsort, hlen]

/-- Claim C5 witness: the sorted-arrangement characterization applied to the
concrete input [3, 1] with sorted arrangement [1, 3]. -/
theorem getMedian_correct_witness :
    ([1, 3] : List ℚ).Sorted (· ≤ ·) ∧ ([3, 1] : List ℚ).Perm [1, 3] ∧
    getMedian [3, 1] =
      (if ([1, 3] : List ℚ).length = 0 then 0
       else if ([1, 3] : List ℚ).length % 2 = 0 then
         (([1, 3] : List ℚ).getD (([1, 3] : List ℚ).length / 2 - 1) 0 +
           ([1, 3] : List ℚ).getD (([1, 3] : List ℚ).length / 2) 0) / 2
       else ([1, 3] : List ℚ).getD (([1, 3] : List ℚ).length / 2) 0) := by
  have hs : ([1, 3] : List ℚ).Sorted (· ≤ ·) := by with_unfolding_all decide
  have hp : ([3, 1] : List ℚ).Perm [1, 3] := by with_unfolding_all decide
  exact ⟨hs, hp, getMedian_correct.2.2.2 [3, 1] [1, 3] hs hp⟩

/-- Claim C9: `getMedian` does not mutate its argument: in the heap-level
picture the array passed in is identical before and after the call (only a
fresh copy is sorted), and the returned value is the pure median. -/
theorem getMedian_no_mutation (σ : List (List ℚ)) (vid : Nat) (h : vid < σ.length) :
    (getMedianImpl σ vid).2.getD vid [] = σ.getD vid [] ∧
    (getMedianImpl σ vid).1 = getMedian (σ.getD vid []) := by
  unfold getMedianImpl getMedian
  by_cases h0 : (σ.getD vid []).length = 0
  · rw [if_pos h0, if_pos h0]
    exact ⟨rfl, rfl⟩
  · have hstore :
        ((σ ++ [σ.getD vid []]).set σ.length
            (List.insertionSort (· ≤ ·) (σ.getD vid []))).getD vid [] = σ.getD vid [] := by
      rw [List.getD_eq_getElem?_getD, List.getElem?_set_ne (by omega),
        List.getElem?_append_left h, ← List.getD_eq_getElem?_getD]
    have hsorted :
        ((σ ++ [σ.getD vid []]).set σ.length
            (List.insertionSort (· ≤ ·) (σ.getD vid []))).getD σ.length [] =
          List.insertionSort (· ≤ ·) (σ.getD vid []) := by
      rw [List.getD_eq_getElem?_getD, List.getElem?_set_self (by simp)]
      rfl
    rw [if_neg h0, if_neg h0]
    simp only [hsorted]
    by_cases hpar : (List.insertionSort (· ≤ ·) (σ.getD vid [])).length % 2 = 0
    · rw [if_pos hpar, if_pos hpar]
      exact ⟨hstore, rfl⟩
    · rw [if_neg hpar, if_neg hpar]
      exact ⟨hstore, rfl⟩

/-- Claim C9 witness: the frame property at the concrete store [[3, 1]] and
index 0. -/
theorem getMedian_no_mutation_witness :
    0 < ([[3, 1]] : List (List ℚ)).length ∧
    (getMedianImpl [[3, 1]] 0).2.getD 0 [] = ([[3, 1]] : List (List ℚ)).getD 0 [] ∧
    (getMedianImpl [[3, 1]] 0).1 = getMedian (([[3, 1]] : List (List ℚ)).getD 0 []) := by
  refine ⟨by decide, ?_, ?_⟩
  · exact (getMedian_no_mutation [[3, 1]] 0 (by decide)).1
  · exact (getMedian_no_mutation [[3, 1]] 0 (by decide)).2

/-- Claim C3: a line (with non-empty trimmed text, in the engine's operating
regime of a body font size of at least 1) qualifies as a heading iff its text
is at most 90 characters, starts with no bullet or numbered-list marker,
contains no tab, has fontSize / bodyFontSize at least 1.28 and at most 14
words; the level is 1 for ratio at least 1.95, 2 for at least 1.65, else 3;
with bodyFontSize 10, font size 12.8 qualifies and 12.79 does not, and the
stated ratio boundaries give levels 1, 2, 2, 3. -/
theorem heading_classification :
    (∀ (text : List Char) (fs bfs : ℚ), 1 ≤ bfs → trimWs text ≠ [] →
      (looksLikeHeading text fs bfs = true ↔
        (trimWs text).length ≤ 90 ∧ startsBulletMarker (trimWs text) = false ∧
        startsNumberedMarker (trimWs text) = false ∧
        (trimWs text).contains '\t' = false ∧
        (1.28 : ℚ) ≤ fs / bfs ∧ wordCount (trimWs text) ≤ 14)) ∧
    (∀ fs bfs : ℚ, 1 ≤ bfs →
      headingLevel fs bfs =
        if (1.95 : ℚ) ≤ fs / bfs then 1 else if (1.65 : ℚ) ≤ fs / bfs then 2 else 3) ∧
    looksLikeHeading "Sample Heading".toList 12.8 10 = true ∧
    looksLikeHeading "Sample Heading".toList 12.79 10 = false ∧
    headingLevel 1.95 1 = 1 ∧ headingLevel 1.94999 1 = 2 ∧
    headingLevel 1.65 1 = 2 ∧ headingLevel 1.64999 1 = 3 := by
  refine ⟨?_, ?_, by with_unfolding_all decide, by with_unfolding_all decide,
    by with_unfolding_all decide, by with_unfolding_all decide,
    by with_unfolding_all decide, by with_unfolding_all decide⟩
  · intro text fs bfs hb hne
    unfold looksLikeHeading
    rw [max_eq_left hb]
    have hemp : ¬ ((trimWs text).isEmpty = true) := by
      simpa [List.isEmpty_iff] using hne
    rw [if_neg hemp]
    split_ifs with h1 h2 h3 h4 h5
    · simp only [Bool.false_eq_true, false_iff]
      rintro ⟨c1, -⟩
      omega
    · simp only [Bool.false_eq_true, false_iff]
      rintro ⟨-, c2, -⟩
      rw [h2] at c2
      exact Bool.true_eq_false.mp c2
    · simp only [Bool.false_eq_true, false_iff]
      rintro ⟨-, -, c3, -⟩
      rw [h3] at c3
      exact Bool.true_eq_false.mp c3
    · simp only [Bool.false_eq_true, false_iff]
      rintro ⟨-, -, -, c4, -⟩
      rw [h4] at c4
      exact Bool.true_eq_false.mp c4
    · simp only [Bool.false_eq_true, false_iff]
      rintro ⟨-, -, -, -, c5, -⟩
      exact absurd c5 (not_le.mpr h5)
    · simp only [decide_eq_true_eq]
      constructor
      · intro hwc
        exact ⟨by omega, Bool.not_eq_true _ ▸ (by simpa using h2),
          by simpa using h3, by simpa using h4, not_lt.mp h5, hwc⟩
      · rintro ⟨-, -, -, -, -, hwc⟩
        exact hwc
  · intro fs bfs hb
    unfold headingLevel
    rw [max_eq_left hb]

/-- Claim C10: both the heading test and the heading level divide by
`max(bodyFontSize, 1)`, so for every body font size below 1 they behave
exactly as if the body font size were 1. -/
theorem bodyFont_clamp :
    (∀ (text : List Char) (fs bfs : ℚ), bfs < 1 →
      looksLikeHeading text fs bfs = looksLikeHeading text fs 1) ∧
    (∀ fs bfs : ℚ, bfs < 1 → headingLevel fs bfs = headingLevel fs 1) := by
  constructor
  · intro text fs bfs hb
    unfold looksLikeHeading
    rw [max_eq_right (le_of_lt hb), max_self]
  · intro fs bfs hb
    unfold headingLevel
    rw [max_eq_right (le_of_lt hb), max_self]

/-- Claim C4: between consecutive segments with gap = currentX − previousEnd,
a tab is inserted when gap > max(24, previousCharWidth × 6), else a space
when gap > max(6, previousCharWidth × 1.75), else nothing; the assembled
two-segment row carries exactly that separator and its hasTabs flag is set
iff the separator is a tab; with previousCharWidth 5 a gap of 20 gives a
space and a gap of 40 gives a tab. -/
theorem gapSeparator_spec :
    (∀ gap pcw : ℚ,
      (max 24 (pcw * 6) < gap → gapSeparator gap pcw = ['\t']) ∧
      (gap ≤ max 24 (pcw * 6) → max 6 (pcw * 1.75) < gap → gapSeparator gap pcw = [' ']) ∧
      (gap ≤ max 24 (pcw * 6) → gap ≤ max 6 (pcw * 1.75) → gapSeparator gap pcw = [])) ∧
    (∀ s1 s2 : PdfTextSegment,
      (assembleRow [s1, s2]).1 =
        s1.text ++ gapSeparator (s2.x - (s1.x + s1.width)) (segCharWidth s1) ++ s2.text ∧
      ((assembleRow [s1, s2]).2 = true ↔
        gapSeparator (s2.x - (s1.x + s1.width)) (segCharWidth s1) = ['\t'])) ∧
    gapSeparator 20 5 = [' '] ∧ gapSeparator 40 5 = ['\t'] := by
  refine ⟨?_, ?_, by with_unfolding_all decide, by with_unfolding_all decide⟩
  · intro gap pcw
    refine ⟨?_, ?_, ?_⟩
    · intro h
      unfold gapSeparator
      rw [if_pos h]
    · intro h1 h2
      unfold gapSeparator
      rw [if_neg (not_lt.mpr h1), if_pos h2]
    · intro h1 h2
      unfold gapSeparator
      rw [if_neg (not_lt.mpr h1), if_neg (not_lt.mpr h2)]
  · intro s1 s2
    refine ⟨rfl, ?_⟩
    show (false || decide (gapSeparator (s2.x - (s1.x + s1.width)) (segCharWidth s1)
      = ['\t'])) = true ↔ _
    simp only [Bool.false_or, decide_eq_true_eq]

/-- Claim C2: a contiguous tab-bearing block becomes a pipe table iff it has
at least 2 rows, at least 2 columns at the widest, and column counts differing
by at most 1; a [3,3,2] block is accepted (3 columns, short row padded, pipes
escaped, header then --- separator then body); a [2,5] block is rejected and
flattened with tabs replaced by single spaces. -/
theorem tableAcceptance :
    (∀ block : List ExtractedLine,
      (tabbedBlockToMarkdownTable block = fallbackTabbedBlock block ↔
        ¬(2 ≤ block.length ∧ 2 ≤ maxColsOf (cellRowsOf block) ∧
          maxColsOf (cellRowsOf block) - minColsOf (cellRowsOf block) ≤ 1))) ∧
    tabbedBlockToMarkdownTable acceptBlock =
      ["| a | b | c |", "| --- | --- | --- |", "| d | e\\|f | g |", "| h | i |  |"].map
        String.toList ∧
    tabbedBlockToMarkdownTable rejectBlock = ["x y", "a b c d e"].map String.toList ∧
    fallbackTabbedBlock rejectBlock = ["x y", "a b c d e"].map String.toList := by
  refine ⟨?_, by with_unfolding_all decide, by with_unfolding_all decide,
    by with_unfolding_all decide⟩
  intro block
  have hlenrows : (cellRowsOf block).length = block.length := by
    simp [cellRowsOf]
  have hlenfall : (fallbackTabbedBlock block).length = block.length := by
    simp [fallbackTabbedBlock]
  by_cases hc : (cellRowsOf block).length < 2 ∨ maxColsOf (cellRowsOf block) < 2 ∨
      maxColsOf (cellRowsOf block) - minColsOf (cellRowsOf block) > 1
  · have heq : tabbedBlockToMarkdownTable block = fallbackTabbedBlock block := by
      unfold tabbedBlockToMarkdownTable
      rw [if_pos hc]
    rw [heq]
    simp only [true_iff]
    rintro ⟨h2, hmax, hdiff⟩
    rcases hc with h | h | h <;> omega
  · push_neg at hc
    obtain ⟨ha, hb2, hc2⟩ := hc
    have hlen1 : (tabbedBlockToMarkdownTable block).length = block.length + 1 := by
      unfold tabbedBlockToMarkdownTable
      rw [if_neg (by push_neg; exact ⟨ha, hb2, hc2⟩)]
      simp only [List.length_cons, List.length_map, List.length_tail, hlenrows]
      omega
    constructor
    · intro heq
      rw [heq, hlenfall] at hlen1
      omega
    · intro hcon
      exact absurd ⟨by omega, hb2, by omega⟩ hcon

/-- Claim C7: whenever the page count exceeds 100, `pdfToMarkdown` fails with
the page-limit error carrying the actual count and the limit 100; the result
does not depend on any page's contents (the theorem quantifies over arbitrary
page contents), so no text extraction or row clustering influences it. -/
theorem pageLimit_spec (pages : List (List RawItem)) (h : 100 < pages.length) :
    pdfToMarkdown pages = Except.error (PdfError.pageLimitExceeded pages.length 100) := by
  unfold pdfToMarkdown MAX_PDF_PAGES
  rw [if_pos h]

/-- Claim C7 witness: a 101-page document (with arbitrary empty pages) yields
`pageLimitExceeded 101 100`. -/
theorem pageLimit_spec_witness :
    100 < (List.replicate 101 ([] : List RawItem)).length ∧
    pdfToMarkdown (List.replicate 101 ([] : List RawItem)) =
      Except.error (PdfError.pageLimitExceeded 101 100) := by
  refine ⟨by simp, ?_⟩
  simpa using pageLimit_spec (List.replicate 101 ([] : List RawItem)) (by simp)

/-- If every raw run of a page is empty or whitespace-only, the page yields
no segments, hence no lines. -/
theorem extractLines_eq_nil_of_ws (items : List RawItem)
    (h : ∀ it ∈ items, trimWs (collapseWsRun it.str) = []) :
    extractLinesFromPdfTextContent items = [] := by
  have hmap : buildRowMap items = [] := by
    unfold buildRowMap
    induction items with
    | nil => rfl
    | cons it rest ih =>
      rw [List.foldl_cons]
      have hnone : normalizeItem it = none := by
        unfold normalizeItem
        rw [h it (List.mem_cons_self it rest)]
        rfl
      rw [hnone]
      exact ih fun x hx => h x (List.mem_cons_of_mem it hx)
  unfold extractLinesFromPdfTextContent sortedRows
  rw [hmap]
  rfl

/-- Claim C6: a document (within the page-count precondition) all of whose
runs are empty or whitespace-only produces zero lines and fails with the
no-extractable-text error. -/
theorem noExtractableText_spec (pages : List (List RawItem))
    (hlen : pages.length ≤ 100)
    (hws : ∀ page ∈ pages, ∀ it ∈ page, trimWs (collapseWsRun it.str) = []) :
    (pages.map extractLinesFromPdfTextContent).flatten = [] ∧
    pdfToMarkdown pages = Except.error PdfError.noExtractableText := by
  have hflat : (pages.map extractLinesFromPdfTextContent).flatten = [] := by
    rw [List.flatten_eq_nil_iff]
    intro l hl
    obtain ⟨page, hpage, rfl⟩ := List.mem_map.mp hl
    exact extractLines_eq_nil_of_ws page (hws page hpage)
  refine ⟨hflat, ?_⟩
  unfold pdfToMarkdown
  have hnot : ¬ (pages.length > MAX_PDF_PAGES) := by
    unfold MAX_PDF_PAGES
    omega
  rw [if_neg hnot]
  simp only [hflat]
  rfl

/-- Claim C6 witness: a one-page document holding a single whitespace-only
run yields zero lines and the no-extractable-text error. -/
theorem noExtractableText_spec_witness :
    wsDoc.length ≤ 100 ∧
    (∀ page ∈ wsDoc, ∀ it ∈ page, trimWs (collapseWsRun it.str) = []) ∧
    ((wsDoc.map extractLinesFromPdfTextContent).flatten = [] ∧
      pdfToMarkdown wsDoc = Except.error PdfError.noExtractableText) := by
  refine ⟨by decide, by decide, noExtractableText_spec wsDoc (by decide) (by decide)⟩

/-- Claim C1 counterexample: on the concrete document of the end-to-end
scenario (one page, row A a single run "Report Title" at font size 24, row B
a single run "This is body text." at font size 12) the engine does not emit
"# Report Title" + blank line + "This is body text.", the body font size it
computes is not 12, and row A's heading level under the computed body font
size is not 1. -/
theorem endToEnd_counterexample :
    pdfToMarkdown demoDoc ≠ Except.ok "# Report Title\n\nThis is body text.".toList ∧
    documentBodyFontSize (demoDoc.map extractLinesFromPdfTextContent).flatten ≠ 12 ∧
    headingLevel 24 (documentBodyFontSize
      (demoDoc.map extractLinesFromPdfTextContent).flatten) ≠ 1 := by
  with_unfolding_all decide

/-- Claim C1 amended: on that document both lines are shorter than 20
characters, so the body-font candidate set is empty and the fallback set
{24, 12} is used, whose median is 18; row A still qualifies as a heading
(ratio 24/18 ≥ 1.28) but at level 3 (24/18 < 1.65), and the engine emits
"### Report Title", a blank line (its row gap 50 exceeds 24 × 1.7), then
"This is body text.". -/
theorem endToEnd_amended :
    pdfToMarkdown demoDoc = Except.ok "### Report Title\n\nThis is body text.".toList ∧
    documentBodyFontSize (demoDoc.map extractLinesFromPdfTextContent).flatten = 18 ∧
    looksLikeHeading "Report Title".toList 24 18 = true ∧
    headingLevel 24 18 = 3 := by
  with_unfolding_all decide
